import Mathlib

/-!
Verification of the chunking and vector-index core of the PDF RAG system
(`backend/app/services/pdf_processor.py` and
`backend/app/services/embedding_service.py`), as a shallow embedding.

Text is modeled as `List Char`, character offsets as `Nat`, float32 scores
as exact rationals (`ℚ`). Python dictionaries are modeled as association
lists with overwrite-or-append insertion. The unbounded `while` loop of
`PDFProcessor.chunk_text` is instrumented with fuel: a `none` result means
the loop has not finished within the given number of iterations.
-/

namespace PdfRag

/-- `PDFChunk` dataclass from `pdf_processor.py`. -/
structure PDFChunk where
  content : List Char
  page_number : Nat
  chunk_index : Nat
  start_char : Nat
  end_char : Nat
  token_count : Nat
deriving DecidableEq

/-- The `PDFProcessor` constructor configuration. -/
structure ChunkConfig where
  chunk_size : Nat
  chunk_overlap : Nat
  min_chunk_size : Nat
deriving DecidableEq

/-- Python slice `text[a:b]` for `0 ≤ a` and `0 ≤ b` (clamping at the ends,
empty when `a ≥ b`), which is the regime every claim exercises. -/
def pySlice (text : List Char) (a b : Nat) : List Char :=
  (text.drop a).take (b - a)

/-- Python `str.strip()`: remove leading and trailing whitespace. -/
def pyStrip (text : List Char) : List Char :=
  ((text.dropWhile Char.isWhitespace).reverse.dropWhile Char.isWhitespace).reverse

/-- `PDFProcessor._estimate_tokens`: `len(text) // 4`. -/
def estimateTokens (text : List Char) : Nat :=
  text.length / 4

/-- `PDFProcessor._find_break_point(text, position)`: three scans of at most
`min(200, len(text) - position)` characters, looking first for a paragraph
break `"\n\n"`, then a sentence end (`.`, `!` or `?` followed by a space or
the end of the text), then a plain space; falls back to `position`.
`(List.range n).find?` returns the first index satisfying the predicate,
exactly as Python's `for i in range(n)` with an early `return`. -/
def findBreakPoint (text : List Char) (position : Nat) : Nat :=
  let searchRange := min 200 (text.length - position)
  match (List.range searchRange).find? (fun i =>
      decide (position + i < text.length) &&
      decide (pySlice text (position + i) (position + i + 2) = ['\n', '\n'])) with
  | some i => position + i + 2
  | none =>
  match (List.range searchRange).find? (fun i =>
      decide (position + i < text.length) &&
      (match text.get? (position + i) with
       | some c =>
          (decide (c = '.') || decide (c = '!') || decide (c = '?')) &&
          (decide (text.length ≤ position + i + 1) ||
           decide (text.get? (position + i + 1) = some ' '))
       | none => false)) with
  | some i => position + i + 1
  | none =>
  match (List.range searchRange).find? (fun i =>
      decide (position + i < text.length) &&
      decide (text.get? (position + i) = some ' ')) with
  | some i => position + i + 1
  | none => position

/-- `PDFProcessor._get_page_for_position`: pages are `(page_number, start_char)`
pairs in the order of the `page_texts` list. -/
def getPageForPosition (pos : Nat) : List (Nat × Nat) → Nat
  | [] => 1
  | [p] => p.1
  | p :: q :: rest => if pos < q.2 then p.1 else getPageForPosition pos (q :: rest)

/-- The `while start < len(text)` loop of `PDFProcessor.chunk_text`,
instrumented with fuel. State: `start`, `chunk_index`, the accumulated
`chunks` list. Python's `start = end - self.chunk_overlap` is on ints;
it is modeled with `Nat` truncated subtraction, which agrees with Python
whenever `chunk_overlap ≤ end` (every input appearing in a theorem below
stays in that regime). The guard after it is Python's
`if (start <= chunks[-1].start_char) if chunks else 0:`, whose conditional
expression compares `start` with the start of the last chunk so far
(falsy `0`, i.e. no forcing, while `chunks` is empty). -/
def chunkLoop (c : ChunkConfig) (text : List Char) (pages : List (Nat × Nat)) :
    Nat → Nat → Nat → List PDFChunk → Option (List PDFChunk)
  | 0, _, _, _ => none
  | fuel + 1, start, chunkIndex, chunks =>
    if start < text.length then
      let end0 := start + c.chunk_size
      let e :=
        if end0 < text.length then
          let bp := findBreakPoint text end0
          if start < bp then bp else end0
        else text.length
      let content := pyStrip (pySlice text start e)
      let appended := decide (c.min_chunk_size ≤ content.length)
      let chunks' :=
        if appended then
          chunks ++ [{ content := content,
                       page_number := getPageForPosition start pages,
                       chunk_index := chunkIndex,
                       start_char := start,
                       end_char := e,
                       token_count := estimateTokens content }]
        else chunks
      let chunkIndex' := if appended then chunkIndex + 1 else chunkIndex
      let start1 := e - c.chunk_overlap
      let forceEnd :=
        match chunks'.getLast? with
        | some last => decide (start1 ≤ last.start_char)
        | none => false
      let start2 := if forceEnd then e else start1
      chunkLoop c text pages fuel start2 chunkIndex' chunks'
    else some chunks

/-- `PDFProcessor.chunk_text`, applied to already-normalized text (the spec's
precondition on the Chunker; `_clean_text` is the identity on text whose
whitespace is already collapsed, NFKC-normal, NUL-free and stripped, so the
cleaning step is modeled as the identity). `fuel` bounds the loop iterations;
`none` means the loop did not finish within `fuel` iterations. -/
def chunk_text (c : ChunkConfig) (text : List Char) (pages : List (Nat × Nat))
    (fuel : Nat) : Option (List PDFChunk) :=
  if text.length < c.min_chunk_size then
    some [{ content := text, page_number := 1, chunk_index := 0,
            start_char := 0, end_char := text.length,
            token_count := estimateTokens text }]
  else
    chunkLoop c text pages fuel 0 0 []

/-- The configuration of the non-termination counterexample:
`PDFProcessor(chunk_size=10, chunk_overlap=2, min_chunk_size=5)`. -/
def cfg9 : ChunkConfig := ⟨10, 2, 5⟩

/-- The text of the non-termination counterexample: `"aaaaaaaaa"` (9 chars). -/
def text9 : List Char := List.replicate 9 'a'

/-- A single page table entry covering offset 0. -/
def pages9 : List (Nat × Nat) := [(1, 0)]

/-- The one chunk `chunk_text` emits on `text9` before looping forever. -/
def chunk9 : PDFChunk :=
  { content := text9, page_number := 1, chunk_index := 0,
    start_char := 0, end_char := 9, token_count := 2 }

/-! ### Python dictionaries as association lists -/

/-- Lookup in a Python dict modeled as an association list. -/
def dictGet {κ α : Type} [DecidableEq κ] (k : κ) : List (κ × α) → Option α
  | [] => none
  | p :: rest => if p.1 = k then some p.2 else dictGet k rest

/-- Assignment `d[k] = v` in a Python dict: overwrite if present, else append. -/
def dictInsert {κ α : Type} [DecidableEq κ] (k : κ) (v : α) :
    List (κ × α) → List (κ × α)
  | [] => [(k, v)]
  | p :: rest => if p.1 = k then (k, v) :: rest else p :: dictInsert k v rest

/-! ### The FAISS flat inner-product index (external library, modeled from
its contract) -/

/-- A float32 vector, modeled over exact rationals. The claims settled here
are about structure and ordering, not floating-point rounding. -/
abbrev Vec := List ℚ

/-- Model of `faiss.IndexIDMap(faiss.IndexFlatIP(d))`: the fixed dimension
and the stored `(numeric id, vector)` pairs in insertion order. -/
structure FaissIndex where
  d : Nat
  entries : List (Int × Vec)
deriving DecidableEq

/-- The two argument-validation failures of the faiss Python wrapper
`add_with_ids` (its asserts `d == self.d` and `ids.shape == (n,)`),
which the spec names `DimensionMismatch` and `LengthMismatch`. -/
inductive FaissError where
  | dimensionMismatch
  | lengthMismatch
deriving DecidableEq

/-- `index.add_with_ids(x, ids)` of the faiss Python wrapper: it first
asserts that the rows of `x` have the index dimension (`d == self.d`), then
that `ids` has as many entries as `x` has rows, and only then appends the
pairs; a failed call appends nothing. -/
def addWithIds (idx : FaissIndex) (xs : List Vec) (ids : List Int) :
    Except FaissError FaissIndex :=
  if xs.all (fun v => v.length == idx.d) then
    if ids.length == xs.length then
      Except.ok { idx with entries := idx.entries ++ List.zip ids xs }
    else Except.error FaissError.lengthMismatch
  else Except.error FaissError.dimensionMismatch

/-- Inner product of two vectors. -/
def dot (u v : Vec) : ℚ :=
  (List.zipWith (fun a b => a * b) u v).sum

/-- The order in which flat inner-product search returns its hits, on
`(score, id)` pairs: higher score first, ties by ascending id. -/
def hitLE (a b : ℚ × Int) : Prop :=
  b.1 < a.1 ∨ (a.1 = b.1 ∧ a.2 ≤ b.2)

instance : DecidableRel hitLE := fun a b => by
  unfold hitLE; infer_instance

instance : IsTotal (ℚ × Int) hitLE where
  total a b := by
    rcases lt_trichotomy a.1 b.1 with h | h | h
    · exact Or.inr (Or.inl h)
    · rcases le_total a.2 b.2 with h2 | h2
      · exact Or.inl (Or.inr ⟨h, h2⟩)
      · exact Or.inr (Or.inr ⟨h.symm, h2⟩)
    · exact Or.inl (Or.inl h)

instance : IsTrans (ℚ × Int) hitLE where
  trans a b c hab hbc := by
    rcases hab with h1 | ⟨h1, h1'⟩
    · rcases hbc with h2 | ⟨h2, _⟩
      · exact Or.inl (h2.trans h1)
      · exact Or.inl (h2 ▸ h1)
    · rcases hbc with h2 | ⟨h2, h2'⟩
      · exact Or.inl (h1 ▸ h2)
      · exact Or.inr ⟨h1.trans h2, h1'.trans h2'⟩

/-- Model of `index.search(query, k)` on the flat inner-product index: score
every stored vector against the query, return the `k` best hits as
`(score, id)` pairs ordered by descending score with ties by ascending id,
padded at the end with id `-1` entries when fewer than `k` vectors are
stored. -/
def faissSearch (idx : FaissIndex) (q : Vec) (k : Nat) : List (ℚ × Int) :=
  let scored := idx.entries.map (fun e => (dot q e.2, e.1))
  let top := (List.insertionSort hitLE scored).take k
  top ++ List.replicate (k - top.length) ((0 : ℚ), (-1 : Int))

/-! ### FAISSIndexManager -/

/-- The metadata record the callers pass per chunk
(`{'content': ..., 'page_number': ...}`, see `routes.py`). -/
structure MetaIn where
  content : String
  page_number : Nat
deriving DecidableEq

/-- A stored metadata entry `{'chunk_id': ..., ('document_id': ...,) **meta}`.
Per-document entries carry no `document_id` key; that absence is modeled as
the empty string, matching `meta.get('document_id', '')` on the read side. -/
structure MetaRec where
  chunk_id : String
  content : String
  page_number : Nat
  document_id : String
deriving DecidableEq

/-- `SearchResult` dataclass from `embedding_service.py`. -/
structure SearchResult where
  chunk_id : String
  content : String
  score : ℚ
  page_number : Nat
  document_id : String
deriving DecidableEq

/-- The deployment-wide embedding collaborator: `EmbeddingService`'s fixed
dimension and deterministic `generate_embedding`. -/
structure Env where
  dim : Nat
  embed : String → Vec

/-- The mutable state of a `FAISSIndexManager`: `self.indices` and
`self.metadata` (document id → ordinal → record). -/
structure FAISSIndexManager where
  indices : List (String × FaissIndex)
  metadata : List (String × List (Int × MetaRec))
deriving DecidableEq

/-- A freshly constructed manager. -/
def emptyManager : FAISSIndexManager := ⟨[], []⟩

/-- `FAISSIndexManager.create_index`: installs an empty flat index of the
embedding dimension and an empty metadata table for the document. -/
def create_index (env : Env) (st : FAISSIndexManager) (doc : String) :
    FAISSIndexManager :=
  { indices := dictInsert doc { d := env.dim, entries := [] } st.indices,
    metadata := dictInsert doc [] st.metadata }

/-- The metadata table of a document, `self.metadata.get(document_id, {})`. -/
def metaOf (st : FAISSIndexManager) (doc : String) : List (Int × MetaRec) :=
  (dictGet doc st.metadata).getD []

/-- The stored vectors of a document's index ( `[]` when no index exists). -/
def entriesOf (st : FAISSIndexManager) (doc : String) : List (Int × Vec) :=
  match dictGet doc st.indices with
  | some idx => idx.entries
  | none => []

/-- The metadata-writing loop of `add_embeddings` /`add_to_global_index`:
`self.metadata[doc][start_id + i] = {'chunk_id': cid, (…document_id…,) **meta}`
over `enumerate(zip(chunk_ids, chunk_metadata))` (`zip` stops at the shorter
of the two lists). -/
def storeMeta (documentIdField : String) (startId : Int) :
    List (String × MetaIn) → List (Int × MetaRec) → List (Int × MetaRec)
  | [], tbl => tbl
  | (cid, m) :: rest, tbl =>
      storeMeta documentIdField (startId + 1) rest
        (dictInsert startId
          { chunk_id := cid, content := m.content,
            page_number := m.page_number, document_id := documentIdField } tbl)

/-- `FAISSIndexManager.add_embeddings`: creates the document's index if
absent, assigns numeric ids continuing from `len(self.metadata.get(doc, {}))`,
adds the vectors through `add_with_ids` and then writes the metadata entries.
The returned state reflects every mutation made before a failure (Python
mutates `self` in place and lets the exception propagate): in particular the
implicit `create_index` is kept when the subsequent `add_with_ids` fails. -/
def add_embeddings (env : Env) (st : FAISSIndexManager) (doc : String)
    (chunk_ids : List String) (embeddings : List Vec)
    (chunk_metadata : List MetaIn) : FAISSIndexManager × Option FaissError :=
  let st1 := if (dictGet doc st.indices).isSome then st else create_index env st doc
  let index := (dictGet doc st1.indices).getD { d := env.dim, entries := [] }
  let startId : Int := ((dictGet doc st1.metadata).getD []).length
  let numericIds : List Int := (List.range chunk_ids.length).map (fun (i : Nat) => startId + (i : Int))
  match addWithIds index embeddings numericIds with
  | Except.error e => (st1, some e)
  | Except.ok index2 =>
      let tbl2 := storeMeta "" startId (List.zip chunk_ids chunk_metadata)
        ((dictGet doc st1.metadata).getD [])
      ({ indices := dictInsert doc index2 st1.indices,
         metadata := dictInsert doc tbl2 st1.metadata }, none)

/-- The result-building loop shared by `search` (and mirrored by
`global_search`): skip id `-1` slots, look the ordinal up in the metadata
table, silently drop hits whose ordinal has no entry (`if meta:` — a stored
entry always has a `chunk_id` key and is never falsy), and otherwise project
a `SearchResult`. `docOf` abstracts the one difference between the two
loops: the per-document loop uses the queried document id, the global loop
uses `meta.get('document_id', '')`. -/
def buildResults (docOf : MetaRec → String) (tbl : List (Int × MetaRec))
    (hits : List (ℚ × Int)) : List SearchResult :=
  hits.filterMap (fun h =>
    if h.2 = -1 then none
    else
      match dictGet h.2 tbl with
      | none => none
      | some m => some { chunk_id := m.chunk_id, content := m.content,
                         score := h.1, page_number := m.page_number,
                         document_id := docOf m })

/-- `FAISSIndexManager.search`: when the document has no in-memory index it
logs a warning and returns `[]` (no exception); otherwise it embeds the
query, runs the flat index search and builds the surviving results. -/
def search (env : Env) (st : FAISSIndexManager) (doc query : String)
    (k : Nat) : List SearchResult :=
  match dictGet doc st.indices with
  | none => []
  | some index =>
      buildResults (fun _ => doc) (metaOf st doc)
        (faissSearch index (env.embed query) k)

/-- The two on-disk artifacts per document (`{doc}.index` via
`faiss.write_index` and `{doc}.meta` via `pickle`), with both serializers
modeled as lossless. -/
structure Disk where
  indexFiles : List (String × FaissIndex)
  metaFiles : List (String × List (Int × MetaRec))
deriving DecidableEq

/-- An empty index directory. -/
def emptyDisk : Disk := ⟨[], []⟩

/-- `FAISSIndexManager.save_index`: a silent no-op when the document has no
in-memory index, otherwise writes both artifacts. -/
def save_index (st : FAISSIndexManager) (disk : Disk) (doc : String) : Disk :=
  match dictGet doc st.indices with
  | none => disk
  | some idx =>
      { indexFiles := dictInsert doc idx disk.indexFiles,
        metaFiles := dictInsert doc (metaOf st doc) disk.metaFiles }

/-- `FAISSIndexManager.load_index`: returns `false` when either artifact is
missing, otherwise replaces the in-memory index and metadata of the
document and returns `true`. -/
def load_index (st : FAISSIndexManager) (disk : Disk) (doc : String) :
    FAISSIndexManager × Bool :=
  match dictGet doc disk.indexFiles, dictGet doc disk.metaFiles with
  | some idx, some tbl =>
      ({ indices := dictInsert doc idx st.indices,
         metadata := dictInsert doc tbl st.metadata }, true)
  | _, _ => (st, false)

/-- The dictionary returned by `FAISSIndexManager.get_index_stats`
(`none` models the empty dict returned when no index exists). -/
structure IndexStats where
  total_vectors : Nat
  dimension : Nat
  metadata_entries : Nat
deriving DecidableEq

/-- `FAISSIndexManager.get_index_stats`. -/
def get_index_stats (env : Env) (st : FAISSIndexManager) (doc : String) :
    Option IndexStats :=
  match dictGet doc st.indices with
  | none => none
  | some idx =>
      some { total_vectors := idx.entries.length, dimension := env.dim,
             metadata_entries := (metaOf st doc).length }

/-! ### GlobalIndexManager -/

/-- The state added by `GlobalIndexManager` on top of the inherited
per-document manager: `nlist`, the optional IVF index (its clustering
structure abstracted to the stored entries), the global metadata table and
the `is_trained` flag. -/
structure GlobalIndexManager where
  base : FAISSIndexManager
  nlist : Nat
  global_index : Option FaissIndex
  global_metadata : List (Int × MetaRec)
  is_trained : Bool
deriving DecidableEq

/-- `GlobalIndexManager.create_global_index(training_vectors)`: allocates
the IVF structure; when training vectors are supplied and number at least
`nlist`, trains immediately (training fixes the clustering; it adds no
entries). -/
def create_global_index (env : Env) (g : GlobalIndexManager)
    (training_vectors : Option (List Vec)) : GlobalIndexManager :=
  let idx : FaissIndex := { d := env.dim, entries := [] }
  match training_vectors with
  | some tv =>
      if g.nlist ≤ tv.length then
        { g with global_index := some idx, is_trained := true }
      else { g with global_index := some idx }
  | none => { g with global_index := some idx }

/-- The observable outcome of `add_to_global_index`: the early
`logger.warning(...); return` when still untrained, a completed add, or a
propagated `add_with_ids` failure. -/
inductive GlobalAddOutcome where
  | deferred
  | added
  | failed (e : FaissError)
deriving DecidableEq

/-- `GlobalIndexManager.add_to_global_index`: creates the global index if
absent (seeding training with this very batch), trains when the batch
reaches `nlist` vectors, and otherwise warns and returns without touching
the index or the metadata; when trained, adds mirror-fashion to
`add_embeddings`, with the owning `document_id` stored per entry. The
`getD` default is unreachable: after the first step `global_index` is
always present. -/
def add_to_global_index (env : Env) (g : GlobalIndexManager) (doc : String)
    (chunk_ids : List String) (embeddings : List Vec)
    (chunk_metadata : List MetaIn) : GlobalIndexManager × GlobalAddOutcome :=
  let g1 := if g.global_index.isSome then g
            else create_global_index env g (some embeddings)
  let g2 := if g1.is_trained = false ∧ g1.nlist ≤ embeddings.length then
              { g1 with is_trained := true }
            else g1
  if g2.is_trained = false then (g2, GlobalAddOutcome.deferred)
  else
    let startId : Int := g2.global_metadata.length
    let numericIds : List Int :=
      (List.range chunk_ids.length).map (fun (i : Nat) => startId + (i : Int))
    let gidx := g2.global_index.getD { d := env.dim, entries := [] }
    match addWithIds gidx embeddings numericIds with
    | Except.error e => (g2, GlobalAddOutcome.failed e)
    | Except.ok gidx2 =>
        ({ g2 with global_index := some gidx2,
                   global_metadata := storeMeta doc startId
                     (List.zip chunk_ids chunk_metadata) g2.global_metadata },
         GlobalAddOutcome.added)

/-- `GlobalIndexManager.global_search`: returns `[]` when the global index
is absent or untrained; otherwise embeds the query and searches (the
`nprobe = min(10, nlist)` recall/latency knob of the IVF search is
abstracted: the search itself is modeled as exact top-k). The result loop
mirrors `search` but takes each result's document id from the entry. -/
def global_search (env : Env) (g : GlobalIndexManager) (query : String)
    (k : Nat) : List SearchResult :=
  match g.global_index with
  | none => []
  | some gidx =>
      if g.is_trained then
        buildResults (fun m => m.document_id) g.global_metadata
          (faissSearch gidx (env.embed query) k)
      else []

/-! ### Projections of the search pipeline, used to state ordering and
dropped-hit properties (results do not carry their ordinal, so these name
the intermediate `(score, id)` stages of `search`'s loop). -/

/-- The faiss hits of a `search` call with the `-1` padding removed. -/
def rawHits (env : Env) (st : FAISSIndexManager) (doc query : String)
    (k : Nat) : List (ℚ × Int) :=
  match dictGet doc st.indices with
  | none => []
  | some index =>
      (faissSearch index (env.embed query) k).filter
        (fun h => !decide (h.2 = -1))

/-- The faiss hits of a `search` call that survive the whole result loop:
not padding, and their ordinal has a metadata entry. -/
def keptHits (env : Env) (st : FAISSIndexManager) (doc query : String)
    (k : Nat) : List (ℚ × Int) :=
  match dictGet doc st.indices with
  | none => []
  | some index =>
      (faissSearch index (env.embed query) k).filter
        (fun h => !decide (h.2 = -1) && (dictGet h.2 (metaOf st doc)).isSome)

/-- The faiss hits of a `global_search` call with the `-1` padding removed. -/
def globalRawHits (env : Env) (g : GlobalIndexManager) (query : String)
    (k : Nat) : List (ℚ × Int) :=
  match g.global_index with
  | none => []
  | some gidx =>
      if g.is_trained then
        (faissSearch gidx (env.embed query) k).filter
          (fun h => !decide (h.2 = -1))
      else []

/-- The `SearchResult` a surviving hit is projected to (the `getD` default is
never read: surviving hits have a metadata entry). -/
def resultOfHit (docOf : MetaRec → String) (tbl : List (Int × MetaRec))
    (h : ℚ × Int) : SearchResult :=
  let m := (dictGet h.2 tbl).getD { chunk_id := "", content := "",
                                    page_number := 0, document_id := "" }
  { chunk_id := m.chunk_id, content := m.content, score := h.1,
    page_number := m.page_number, document_id := docOf m }

/-- The dimension `add_embeddings` validates a batch against: the existing
index's dimension, or the embedding dimension when the index is yet to be
created. -/
def indexDimOf (env : Env) (st : FAISSIndexManager) (doc : String) : Nat :=
  match dictGet doc st.indices with
  | some idx => idx.d
  | none => env.dim

/-! ### Concrete inputs used by counterexamples and witnesses -/

/-- A deployment with the production dimension 384. -/
def env384 : Env := ⟨384, fun _ => List.replicate 384 (0 : ℚ)⟩

/-- A degenerate dimension-0 deployment (`embed` is constantly the empty
vector), chosen so that every inner product reduces to the literal `0` and
concrete searches can be evaluated by the kernel. -/
def env0 : Env := ⟨0, fun _ => []⟩

/-- A 300-dimension vector, mismatching the 384-dimension deployment. -/
def vec300 : Vec := List.replicate 300 (0 : ℚ)

/-- A typical caller-supplied metadata record. -/
def metaIn1 : MetaIn := ⟨"some chunk text", 1⟩

/-- A manager state holding two vectors under ordinals 0 and 1 for document
`"d"` but a metadata entry only for ordinal 0 (the state the silent
`zip`-truncation of `add_embeddings` produces). -/
def stDrop : FAISSIndexManager :=
  { indices := [("d", { d := 0, entries := [(0, []), (1, [])] })],
    metadata := [("d", [(0, { chunk_id := "c0", content := "hello",
                              page_number := 1, document_id := "" })])] }

/-- The manager state after one successful one-vector add to `"doc"`. -/
def stOne : FAISSIndexManager :=
  (add_embeddings env0 emptyManager "doc" ["c0"] [[]] [metaIn1]).1

/-- An untrained global manager whose global index exists (the `Untrained`
state of the spec's lifecycle), with `nlist = 100`. -/
def gUntrained : GlobalIndexManager :=
  { base := emptyManager, nlist := 100,
    global_index := some { d := 3, entries := [] },
    global_metadata := [], is_trained := false }

/-- A global manager that has not even allocated its global index yet. -/
def gNone : GlobalIndexManager :=
  { base := emptyManager, nlist := 100, global_index := none,
    global_metadata := [], is_trained := false }

/-! ## Helper lemmas -/

/-- Looking up the key just inserted. -/
theorem dictGet_dictInsert_self {κ α : Type} [DecidableEq κ] (k : κ) (v : α)
    (l : List (κ × α)) : dictGet k (dictInsert k v l) = some v := by
  induction l with
  | nil => simp [dictGet, dictInsert]
  | cons p rest ih =>
    by_cases h : p.1 = k
    · simp [dictInsert, h, dictGet]
    · simp [dictInsert, h, dictGet, ih]

/-- Insertion does not change other keys. -/
theorem dictGet_dictInsert_ne {κ α : Type} [DecidableEq κ] {k k' : κ}
    (v : α) (l : List (κ × α)) (h : k' ≠ k) :
    dictGet k' (dictInsert k v l) = dictGet k' l := by
  induction l with
  | nil =>
    simp only [dictInsert, dictGet]
    rw [if_neg (fun hh : k = k' => h hh.symm)]
  | cons p rest ih =>
    simp only [dictInsert]
    by_cases hp : p.1 = k
    · rw [if_pos hp]
      simp only [dictGet]
      rw [if_neg (fun hh : k = k' => h hh.symm),
          if_neg (fun hh : p.1 = k' => h ((hp.symm.trans hh).symm))]
    · rw [if_neg hp]
      simp only [dictGet]
      by_cases hp' : p.1 = k'
      · rw [if_pos hp', if_pos hp']
      · rw [if_neg hp', if_neg hp', ih]

/-- The result loop is the map of the surviving hits. -/
theorem buildResults_eq_map_filter (docOf : MetaRec → String)
    (tbl : List (Int × MetaRec)) (hits : List (ℚ × Int)) :
    buildResults docOf tbl hits =
      (hits.filter (fun h => !decide (h.2 = -1) && (dictGet h.2 tbl).isSome)).map
        (resultOfHit docOf tbl) := by
  induction hits with
  | nil => rfl
  | cons h t ih =>
    by_cases h1 : h.2 = -1
    · simpa [buildResults, List.filterMap_cons, List.filter_cons, h1,
             -List.filterMap_eq_map] using ih
    · cases hm : dictGet h.2 tbl with
      | none =>
        simpa [buildResults, List.filterMap_cons, List.filter_cons, h1, hm] using ih
      | some m =>
        simpa [buildResults, List.filterMap_cons, List.filter_cons, h1, hm,
               resultOfHit] using ih

/-- A flat search always returns exactly `k` slots. -/
theorem faissSearch_length (idx : FaissIndex) (q : Vec) (k : Nat) :
    (faissSearch idx q k).length = k := by
  simp only [faissSearch, List.length_append, List.length_replicate, List.length_take]
  omega

/-- Any filtering of a flat search that discards the `-1` padding yields a
list ordered by `hitLE`. -/
theorem filter_faissSearch_pairwise (idx : FaissIndex) (q : Vec) (k : Nat)
    (p : ℚ × Int → Bool) (hp : p ((0 : ℚ), (-1 : Int)) = false) :
    List.Pairwise hitLE ((faissSearch idx q k).filter p) := by
  simp only [faissSearch, List.filter_append]
  rw [List.filter_replicate, if_neg (by simp [hp]), List.append_nil]
  exact (List.sorted_insertionSort hitLE _).sublist
    ((List.filter_sublist _).trans (List.take_sublist _ _))

/-- `search` is the projection of its surviving hits. -/
theorem search_eq_keptHits_map (env : Env) (st : FAISSIndexManager)
    (doc q : String) (k : Nat) :
    search env st doc q k =
      (keptHits env st doc q k).map (resultOfHit (fun _ => doc) (metaOf st doc)) := by
  unfold search keptHits
  cases dictGet doc st.indices with
  | none => rfl
  | some index => exact buildResults_eq_map_filter _ _ _

/-- The surviving hits of `search` are ordered by `hitLE`. -/
theorem keptHits_pairwise (env : Env) (st : FAISSIndexManager)
    (doc q : String) (k : Nat) :
    List.Pairwise hitLE (keptHits env st doc q k) := by
  unfold keptHits
  cases dictGet doc st.indices with
  | none => exact List.Pairwise.nil
  | some index => exact filter_faissSearch_pairwise _ _ _ _ (by simp)

/-- The surviving hits number at most `k`. -/
theorem keptHits_length_le (env : Env) (st : FAISSIndexManager)
    (doc q : String) (k : Nat) :
    (keptHits env st doc q k).length ≤ k := by
  unfold keptHits
  cases dictGet doc st.indices with
  | none => exact Nat.zero_le k
  | some index =>
      calc ((faissSearch index (env.embed q) k).filter _).length
          ≤ (faissSearch index (env.embed q) k).length := List.length_filter_le _ _
        _ = k := faissSearch_length _ _ _

/-- `global_search` decomposed into its surviving hits. -/
theorem global_search_eq_filter_map (env : Env) (g : GlobalIndexManager)
    (q : String) (k : Nat) :
    global_search env g q k =
      ((globalRawHits env g q k).filter
          (fun h => (dictGet h.2 g.global_metadata).isSome)).map
        (resultOfHit (fun m => m.document_id) g.global_metadata) := by
  unfold global_search globalRawHits
  cases g.global_index with
  | none => rfl
  | some gidx =>
    cases hb : g.is_trained with
    | false => simp [hb]
    | true =>
      dsimp only
      rw [if_pos rfl, if_pos rfl, buildResults_eq_map_filter, List.filter_filter]
      congr 1
      exact List.filter_congr (fun a _ => Bool.and_comm _ _)

/-- `search` decomposed into its surviving hits. -/
theorem search_eq_filter_map (env : Env) (st : FAISSIndexManager)
    (doc q : String) (k : Nat) :
    search env st doc q k =
      ((rawHits env st doc q k).filter
          (fun h => (dictGet h.2 (metaOf st doc)).isSome)).map
        (resultOfHit (fun _ => doc) (metaOf st doc)) := by
  unfold search rawHits
  cases dictGet doc st.indices with
  | none => rfl
  | some index =>
    dsimp only
    rw [buildResults_eq_map_filter, List.filter_filter]
    congr 1
    exact List.filter_congr (fun a _ => Bool.and_comm _ _)

/-- The loop of `chunk_text` on `text9` reaches the state `start = 7` with
one emitted chunk and stays there: every amount of fuel is exhausted. -/
theorem chunkLoop_stuck_at_7 :
    ∀ n, chunkLoop cfg9 text9 pages9 n 7 1 [chunk9] = none := by
  intro n
  induction n with
  | zero => rfl
  | succ n ih => exact ih

/-- On any failure, `add_embeddings` returns the pre-add state: the original
one when the document's index existed, the freshly created empty one
otherwise (Python mutates `self` in place before the exception). -/
theorem add_embeddings_error_state (env : Env) (st : FAISSIndexManager)
    (doc : String) (ids : List String) (vecs : List Vec) (metas : List MetaIn)
    (e : FaissError)
    (herr : (add_embeddings env st doc ids vecs metas).2 = some e) :
    (add_embeddings env st doc ids vecs metas).1 =
      if (dictGet doc st.indices).isSome then st else create_index env st doc := by
  simp only [add_embeddings] at herr ⊢
  split at herr
  · rfl
  · simp at herr

/-- The dimension a batch is actually checked against inside
`add_embeddings` is `indexDimOf`. -/
theorem add_embeddings_check_dim (env : Env) (st : FAISSIndexManager)
    (doc : String) :
    ((dictGet doc (if (dictGet doc st.indices).isSome then st
        else create_index env st doc).indices).getD
      { d := env.dim, entries := [] }).d = indexDimOf env st doc := by
  by_cases hidx : (dictGet doc st.indices).isSome
  · rw [if_pos hidx]
    obtain ⟨i, hi⟩ := Option.isSome_iff_exists.mp hidx
    rw [hi]
    unfold indexDimOf
    rw [hi]
    rfl
  · rw [if_neg hidx]
    unfold create_index
    dsimp only
    rw [dictGet_dictInsert_self]
    unfold indexDimOf
    rw [Option.not_isSome_iff_eq_none.mp hidx]
    rfl

/-- For a batch of the checked dimension, the outcome of `add_embeddings`
is decided by the id/vector count comparison alone. -/
theorem add_embeddings_outcome (env : Env) (st : FAISSIndexManager)
    (doc : String) (ids : List String) (vecs : List Vec) (metas : List MetaIn)
    (hdim : ∀ v ∈ vecs, v.length = indexDimOf env st doc) :
    (add_embeddings env st doc ids vecs metas).2 =
      if ids.length = vecs.length then none
      else some FaissError.lengthMismatch := by
  have hall : (vecs.all fun v => v.length == indexDimOf env st doc) = true :=
    List.all_eq_true.mpr (fun v hv => beq_iff_eq.mpr (hdim v hv))
  simp only [add_embeddings, addWithIds, add_embeddings_check_dim]
  generalize (if (dictGet doc st.indices).isSome then st
      else create_index env st doc) = s
  rw [if_pos hall]
  by_cases he : ids.length = vecs.length
  · rw [if_pos (show ((List.map (fun (n : Nat) =>
        ((((dictGet doc s.metadata).getD []).length : Int)) + (n : Int))
        (List.range ids.length)).length == vecs.length) = true by simp [he]),
      if_pos he]
  · rw [if_neg (show ¬ (((List.map (fun (n : Nat) =>
        ((((dictGet doc s.metadata).getD []).length : Int)) + (n : Int))
        (List.range ids.length)).length == vecs.length) = true) by simp [he]),
      if_neg he]

/-! ## The claims -/

/-- C1: the claim states that `chunk_text` terminates with strictly positive
progress of the window start on every iteration, for every configuration and
every normalized input. The code violates this: with
`chunk_size = 10, chunk_overlap = 2, min_chunk_size = 5` on the nine-character
text `"aaaaaaaaa"`, the loop emits one chunk at `start = 0`, moves to
`start = 7`, and then repeats `start = 7` forever (the final window
`text[7:9]` is below `min_chunk_size`, so nothing is appended, and the guard
compares the recomputed `start = 9 - 2 = 7` against the start of the last
*emitted* chunk, `0`, so it never forces progress). This theorem shows the
fuel-instrumented loop fails to finish for every fuel bound. -/
theorem chunk_text_diverges_on_text9 :
    ∀ fuel, chunk_text cfg9 text9 pages9 fuel = none := by
  intro fuel
  cases fuel with
  | zero => rfl
  | succ n =>
    have h1 : chunk_text cfg9 text9 pages9 (n + 1) =
        chunkLoop cfg9 text9 pages9 n 7 1 [chunk9] := rfl
    rw [h1]
    exact chunkLoop_stuck_at_7 n

/-- C9: a (normalized) text shorter than `min_chunk_size` yields exactly one
chunk spanning the whole text, page 1, chunk index 0. -/
theorem chunk_text_short_document (c : ChunkConfig) (pages : List (Nat × Nat))
    (fuel : Nat) (t : List Char) (h : t.length < c.min_chunk_size) :
    chunk_text c t pages fuel =
      some [{ content := t, page_number := 1, chunk_index := 0,
              start_char := 0, end_char := t.length,
              token_count := t.length / 4 }] := by
  unfold chunk_text
  rw [if_pos h]
  rfl

/-- Witness for C9 at the two-character text `"ab"` with
`min_chunk_size = 5`. -/
theorem chunk_text_short_document_witness :
    chunk_text cfg9 ['a', 'b'] [] 0 =
      some [{ content := ['a', 'b'], page_number := 1, chunk_index := 0,
              start_char := 0, end_char := 2, token_count := 0 }] :=
  chunk_text_short_document cfg9 [] 0 ['a', 'b'] (by decide)

/-- Counterexample to C3 as stated: a `search` against a document with no
in-memory index does not fail with an `IndexNotFound` error — it returns
normally with `[]`, the very same observable result as a search against an
existing index that holds no vectors, so the two cases are not
distinguished. -/
theorem search_missing_index_not_an_error :
    search env0 emptyManager "doc" "q" 5 = [] ∧
    search env0 (create_index env0 emptyManager "doc") "doc" "q" 5 = [] := by
  constructor
  · decide
  · decide

/-- C3 (amended): a `search` against a document with no in-memory index
logs a warning and returns the empty list instead of failing, and a search
against an existing empty index also returns the empty list; the caller
cannot distinguish the two outcomes. -/
theorem search_empty_and_missing_return_empty :
    (∀ (env : Env) (st : FAISSIndexManager) (doc q : String) (k : Nat),
        dictGet doc st.indices = none → search env st doc q k = []) ∧
    (∀ (env : Env) (st : FAISSIndexManager) (doc q : String) (k : Nat)
        (idx : FaissIndex), dictGet doc st.indices = some idx →
        idx.entries = [] → search env st doc q k = []) := by
  constructor
  · intro env st doc q k h
    unfold search
    rw [h]
  · intro env st doc q k idx h hempty
    unfold search
    rw [h]
    dsimp only
    rw [buildResults_eq_map_filter]
    have hfs : faissSearch idx (env.embed q) k =
        List.replicate k ((0 : ℚ), (-1 : Int)) := by
      simp [faissSearch, hempty]
    rw [hfs, List.filter_replicate]
    simp

/-- Witness for the amended C3 at concrete states. -/
theorem search_empty_and_missing_return_empty_witness :
    search env0 emptyManager "nope" "q" 3 = [] ∧
    search env0 (create_index env0 emptyManager "doc") "doc" "q" 3 = [] :=
  ⟨search_empty_and_missing_return_empty.1 env0 emptyManager "nope" "q" 3 rfl,
   search_empty_and_missing_return_empty.2 env0
     (create_index env0 emptyManager "doc") "doc" "q" 3
     { d := 0, entries := [] } rfl rfl⟩

/-- C8: `search` returns at most `k` results, ordered by score descending,
and the surviving `(score, ordinal)` hits it projects are ordered by score
descending with ties broken by ascending ordinal. -/
theorem search_results_ordered (env : Env) (st : FAISSIndexManager)
    (doc q : String) (k : Nat) :
    (search env st doc q k).length ≤ k ∧
    List.Pairwise (fun a b : SearchResult => b.score ≤ a.score)
      (search env st doc q k) ∧
    List.Pairwise hitLE (keptHits env st doc q k) ∧
    search env st doc q k =
      (keptHits env st doc q k).map (resultOfHit (fun _ => doc) (metaOf st doc)) := by
  refine ⟨?_, ?_, keptHits_pairwise env st doc q k,
    search_eq_keptHits_map env st doc q k⟩
  · rw [search_eq_keptHits_map, List.length_map]
    exact keptHits_length_le env st doc q k
  · rw [search_eq_keptHits_map]
    refine (keptHits_pairwise env st doc q k).map _ (fun a b hab => ?_)
    rcases hab with hlt | ⟨heq, _⟩
    · exact le_of_lt hlt
    · exact le_of_eq heq.symm

/-- C10: both result loops keep exactly the non-padding hits whose ordinal
has a metadata entry — a hit without one is silently dropped, with no error
(the functions are total); consequently, in the concrete state `stDrop`
whose index holds 2 vectors but whose metadata table has an entry only for
ordinal 0, a `k = 2` search returns a single result. -/
theorem search_drops_unmapped_hits :
    (∀ (env : Env) (st : FAISSIndexManager) (doc q : String) (k : Nat),
        search env st doc q k =
          ((rawHits env st doc q k).filter
              (fun h => (dictGet h.2 (metaOf st doc)).isSome)).map
            (resultOfHit (fun _ => doc) (metaOf st doc))) ∧
    (∀ (env : Env) (g : GlobalIndexManager) (q : String) (k : Nat),
        global_search env g q k =
          ((globalRawHits env g q k).filter
              (fun h => (dictGet h.2 g.global_metadata).isSome)).map
            (resultOfHit (fun m => m.document_id) g.global_metadata)) ∧
    (entriesOf stDrop "d").length = 2 ∧
    (search env0 stDrop "d" "q" 2).length = 1 := by
  refine ⟨search_eq_filter_map, global_search_eq_filter_map, by decide, by decide⟩

/-- C6: a `global_search` issued before the global index is trained returns
the empty list — the untrained state is signalled by this empty result, not
by an exception (the model is a total function, mirroring the early
`return []`). -/
theorem global_search_untrained_empty (env : Env) (g : GlobalIndexManager)
    (q : String) (k : Nat) (h : g.is_trained = false) :
    global_search env g q k = [] := by
  unfold global_search
  cases hgi : g.global_index with
  | none => rfl
  | some gidx =>
    dsimp only
    rw [if_neg (by simp [h])]

/-- Witness for C6: both an allocated-but-untrained global index and a
never-allocated one yield `[]`. -/
theorem global_search_untrained_empty_witness :
    global_search env0 gUntrained "q" 7 = [] ∧
    global_search env0 gNone "q" 7 = [] :=
  ⟨global_search_untrained_empty env0 gUntrained "q" 7 rfl,
   global_search_untrained_empty env0 gNone "q" 7 rfl⟩

/-- C7: an `add_to_global_index` on an existing untrained global index with
a batch smaller than `nlist` is a pure no-op that signals deferral: the
returned state is exactly the input state (global metadata, index contents
and trained flag all unchanged) and the outcome is the warning-logged
`deferred`, not a failure. -/
theorem add_to_global_index_untrained_small_noop (env : Env)
    (g : GlobalIndexManager) (doc : String) (ids : List String)
    (vecs : List Vec) (metas : List MetaIn)
    (h1 : g.global_index.isSome = true) (h2 : g.is_trained = false)
    (h3 : vecs.length < g.nlist) :
    add_to_global_index env g doc ids vecs metas =
      (g, GlobalAddOutcome.deferred) := by
  simp [add_to_global_index, h1, h2, Nat.not_le.mpr h3]

/-- Witness for C7: one dimension-0 vector against `nlist = 100`. -/
theorem add_to_global_index_untrained_small_noop_witness :
    add_to_global_index env0 gUntrained "d" ["c"] [[]] [metaIn1] =
      (gUntrained, GlobalAddOutcome.deferred) :=
  add_to_global_index_untrained_small_noop env0 gUntrained "d" ["c"] [[]]
    [metaIn1] rfl rfl (by decide)

/-- C5: for any state in which the document has an in-memory index,
`save_index` followed by `load_index` into a fresh manager restores a state
whose searches are identical to the original's — the same results (scores,
order) and the same surviving `(score, ordinal)` hits. -/
theorem save_load_roundtrip (env : Env) (st : FAISSIndexManager) (disk : Disk)
    (doc q : String) (k : Nat) (idx : FaissIndex)
    (h : dictGet doc st.indices = some idx) :
    (load_index emptyManager (save_index st disk doc) doc).2 = true ∧
    search env (load_index emptyManager (save_index st disk doc) doc).1 doc q k =
      search env st doc q k ∧
    keptHits env (load_index emptyManager (save_index st disk doc) doc).1 doc q k =
      keptHits env st doc q k := by
  have hsave : save_index st disk doc =
      ⟨dictInsert doc idx disk.indexFiles,
       dictInsert doc (metaOf st doc) disk.metaFiles⟩ := by
    unfold save_index
    rw [h]
  have hload : load_index emptyManager (save_index st disk doc) doc =
      (⟨dictInsert doc idx emptyManager.indices,
        dictInsert doc (metaOf st doc) emptyManager.metadata⟩, true) := by
    rw [hsave]
    unfold load_index
    rw [dictGet_dictInsert_self, dictGet_dictInsert_self]
  rw [hload]
  have hidx2 : dictGet doc (dictInsert doc idx emptyManager.indices) = some idx :=
    dictGet_dictInsert_self doc idx emptyManager.indices
  have hmeta2 : metaOf
      (⟨dictInsert doc idx emptyManager.indices,
        dictInsert doc (metaOf st doc) emptyManager.metadata⟩ : FAISSIndexManager)
      doc = metaOf st doc := by
    unfold metaOf
    rw [dictGet_dictInsert_self]
    rfl
  refine ⟨rfl, ?_, ?_⟩
  · unfold search
    rw [hidx2, h, hmeta2]
  · unfold keptHits
    rw [hidx2, h, hmeta2]

/-- Witness for C5 at a one-vector state. -/
theorem save_load_roundtrip_witness :
    (load_index emptyManager (save_index stOne emptyDisk "doc") "doc").2 = true ∧
    search env0 (load_index emptyManager (save_index stOne emptyDisk "doc") "doc").1
        "doc" "q" 3 =
      search env0 stOne "doc" "q" 3 ∧
    keptHits env0 (load_index emptyManager (save_index stOne emptyDisk "doc") "doc").1
        "doc" "q" 3 =
      keptHits env0 stOne "doc" "q" 3 :=
  save_load_roundtrip env0 stOne emptyDisk "doc" "q" 3 ⟨0, [(0, [])]⟩ (by decide)

set_option maxRecDepth 20000 in
/-- Counterexample to C2 as stated: an `add` of a 300-dimension vector into
the 384-dimension deployment for a document with no index fails with
`DimensionMismatch` and inserts no vectors and no metadata — but the
per-document state is not exactly what it was: the failed call has created
(and left behind) an empty index for the document ID, so afterwards `stats`
answers `total_vectors = 0` instead of the empty dict of a nonexistent
index. -/
theorem add_embeddings_dim_mismatch_creates_index :
    (add_embeddings env384 emptyManager "doc" ["c0"] [vec300] [metaIn1]).2 =
        some FaissError.dimensionMismatch ∧
    dictGet "doc" emptyManager.indices = none ∧
    dictGet "doc"
        (add_embeddings env384 emptyManager "doc" ["c0"] [vec300] [metaIn1]).1.indices =
      some { d := 384, entries := [] } ∧
    get_index_stats env384
        (add_embeddings env384 emptyManager "doc" ["c0"] [vec300] [metaIn1]).1 "doc" =
      some { total_vectors := 0, dimension := 384, metadata_entries := 0 } := by
  refine ⟨?_, rfl, ?_, ?_⟩
  · decide
  · decide
  · decide

/-- C2 (amended): a failed `add` inserts no vectors into the document's
index, writes no metadata entries, and leaves every other document's state
untouched; however, when the document had no index before the call, the
failed call still creates (and leaves behind) an empty index and empty
metadata table for it. The sync hypothesis records the invariant, maintained
by every operation, that a document has an index entry exactly when it has a
metadata table. -/
theorem add_embeddings_failure_frame (env : Env) (st : FAISSIndexManager)
    (doc : String) (ids : List String) (vecs : List Vec) (metas : List MetaIn)
    (e : FaissError)
    (hsync : (dictGet doc st.indices).isSome = (dictGet doc st.metadata).isSome)
    (herr : (add_embeddings env st doc ids vecs metas).2 = some e) :
    entriesOf (add_embeddings env st doc ids vecs metas).1 doc =
        entriesOf st doc ∧
    metaOf (add_embeddings env st doc ids vecs metas).1 doc = metaOf st doc ∧
    ∀ other, other ≠ doc →
      dictGet other (add_embeddings env st doc ids vecs metas).1.indices =
          dictGet other st.indices ∧
      dictGet other (add_embeddings env st doc ids vecs metas).1.metadata =
          dictGet other st.metadata := by
  have hstate := add_embeddings_error_state env st doc ids vecs metas e herr
  by_cases hidx : (dictGet doc st.indices).isSome
  · rw [if_pos hidx] at hstate
    rw [hstate]
    exact ⟨rfl, rfl, fun other _ => ⟨rfl, rfl⟩⟩
  · rw [if_neg hidx] at hstate
    rw [hstate]
    have hnone : dictGet doc st.indices = none :=
      Option.not_isSome_iff_eq_none.mp hidx
    have hnone2 : dictGet doc st.metadata = none := by
      apply Option.not_isSome_iff_eq_none.mp
      rw [← hsync]
      exact hidx
    refine ⟨?_, ?_, ?_⟩
    · unfold entriesOf create_index
      dsimp only
      rw [dictGet_dictInsert_self, hnone]
    · unfold metaOf create_index
      dsimp only
      rw [dictGet_dictInsert_self, hnone2]
      rfl
    · intro other hne
      unfold create_index
      exact ⟨dictGet_dictInsert_ne _ _ hne, dictGet_dictInsert_ne _ _ hne⟩

set_option maxRecDepth 20000 in
/-- Witness for the amended C2: the 300-into-384 scenario, applied to the
frame theorem. -/
theorem add_embeddings_failure_frame_witness :
    entriesOf (add_embeddings env384 emptyManager "doc" ["c0"] [vec300] [metaIn1]).1
        "doc" = entriesOf emptyManager "doc" ∧
    metaOf (add_embeddings env384 emptyManager "doc" ["c0"] [vec300] [metaIn1]).1
        "doc" = metaOf emptyManager "doc" := by
  have h := add_embeddings_failure_frame env384 emptyManager "doc" ["c0"]
    [vec300] [metaIn1] FaissError.dimensionMismatch rfl (by decide)
  exact ⟨h.1, h.2.1⟩

/-- Counterexample to C4 as stated: a metadata sequence of the wrong length
is not rejected — an `add` with 2 chunk ids, 2 vectors, but only 1 metadata
record succeeds (no `LengthMismatch`), inserts both vectors, and silently
writes only the single zipped metadata entry, leaving ordinal 1 orphaned. -/
theorem add_embeddings_metadata_mismatch_not_rejected :
    (add_embeddings env0 emptyManager "d" ["a", "b"] [[], []] [metaIn1]).2 =
        none ∧
    (entriesOf (add_embeddings env0 emptyManager "d" ["a", "b"] [[], []]
        [metaIn1]).1 "d").length = 2 ∧
    (metaOf (add_embeddings env0 emptyManager "d" ["a", "b"] [[], []]
        [metaIn1]).1 "d").length = 1 := by
  refine ⟨?_, ?_, ?_⟩
  · decide
  · decide
  · decide

/-- C4 (amended): when every vector has the checked dimension, an `add`
whose chunk-id count differs from its vector count fails with
`LengthMismatch` and inserts nothing (in particular the 5-ids/4-vectors
scenario), while matching id and vector counts make the call succeed no
matter what length the metadata sequence has — a metadata-length mismatch
alone is never rejected. -/
theorem add_embeddings_length_checks :
    (∀ (env : Env) (st : FAISSIndexManager) (doc : String) (ids : List String)
        (vecs : List Vec) (metas : List MetaIn),
        (∀ v ∈ vecs, v.length = indexDimOf env st doc) →
        ids.length ≠ vecs.length →
        (add_embeddings env st doc ids vecs metas).2 =
            some FaissError.lengthMismatch ∧
        entriesOf (add_embeddings env st doc ids vecs metas).1 doc =
            entriesOf st doc) ∧
    (∀ (env : Env) (st : FAISSIndexManager) (doc : String) (ids : List String)
        (vecs : List Vec) (metas : List MetaIn),
        (∀ v ∈ vecs, v.length = indexDimOf env st doc) →
        ids.length = vecs.length →
        (add_embeddings env st doc ids vecs metas).2 = none) := by
  constructor
  · intro env st doc ids vecs metas hdim hne
    have hout := add_embeddings_outcome env st doc ids vecs metas hdim
    rw [if_neg hne] at hout
    refine ⟨hout, ?_⟩
    have hstate := add_embeddings_error_state env st doc ids vecs metas _ hout
    by_cases hidx : (dictGet doc st.indices).isSome
    · rw [if_pos hidx] at hstate
      rw [hstate]
    · rw [if_neg hidx] at hstate
      rw [hstate]
      unfold entriesOf create_index
      dsimp only
      rw [dictGet_dictInsert_self, Option.not_isSome_iff_eq_none.mp hidx]
  · intro env st doc ids vecs metas hdim heq
    have hout := add_embeddings_outcome env st doc ids vecs metas hdim
    rwa [if_pos heq] at hout

/-- Witness for the amended C4: the 5-ids/4-vectors scenario fails with
`LengthMismatch`, and a 2-ids/2-vectors call with a single metadata record
succeeds. -/
theorem add_embeddings_length_checks_witness :
    (add_embeddings env0 emptyManager "d5" ["a", "b", "c", "x", "y"]
        [[], [], [], []] [metaIn1, metaIn1, metaIn1, metaIn1, metaIn1]).2 =
      some FaissError.lengthMismatch ∧
    (add_embeddings env0 emptyManager "d2" ["a", "b"] [[], []] [metaIn1]).2 =
      none :=
  ⟨(add_embeddings_length_checks.1 env0 emptyManager "d5"
      ["a", "b", "c", "x", "y"] [[], [], [], []]
      [metaIn1, metaIn1, metaIn1, metaIn1, metaIn1] (by decide) (by decide)).1,
   add_embeddings_length_checks.2 env0 emptyManager "d2" ["a", "b"] [[], []]
     [metaIn1] (by decide) (by decide)⟩

end PdfRag
